import Mathlib

/-!
Verification of the LiveOps calendar event ingestion and search engine
(`src/unnamed/part_000` and `src/liveops-calendar/app.js`).

The JavaScript sources are embedded shallowly: the global mutable variables
(`events`, `filteredEvents`, `highlightedDate`, ...) become explicit state
passed to pure functions, `setTimeout` becomes a list of pending deadlines,
and the fallible date parses become `Option` results.  The JS string methods
`trim`, `toLowerCase`, `split` and `includes` are embedded as executable
functions over the character sequence of a `String`.
-/

/-- JS `String.prototype.includes`: substring containment, expressed on the
character sequences of the two strings. -/
def strContains (s pat : String) : Bool := decide (pat.toList <:+: s.toList)

/-- JS `String.prototype.trim`: drop whitespace from both ends. -/
def jsTrim (s : String) : String :=
  ⟨(((s.data.dropWhile Char.isWhitespace).reverse.dropWhile Char.isWhitespace).reverse)⟩

/-- JS `String.prototype.toLowerCase`. -/
def jsToLower (s : String) : String := ⟨s.data.map Char.toLower⟩

/-- JS `String.prototype.split` with a single-character separator. -/
def jsSplit (sep : Char) (s : String) : List String :=
  (s.data.foldr (fun x acc =>
    if x = sep then [] :: acc
    else match acc with
      | h :: t => (x :: h) :: t
      | [] => [[x]]) [[]]).map fun cs => ⟨cs⟩

/-- A canonical calendar event as stored in the global `events` array (the
fields pushed by `processImportedData` in `src/unnamed/part_000`):
`id`, `date` (formatted `YYYY-MM-DD`), `title`, `fair`, `link`. -/
structure Event where
  id : Nat
  date : String
  title : String
  fair : String
  link : String
  deriving DecidableEq, Repr

/-- State of one run of `processImportedData`: the event store plus the two
counters it reports. -/
structure ImportState where
  events : List Event
  imported : Nat
  skipped : Nat
  deriving DecidableEq, Repr

/-- Header-row detection of `processImportedData` (part_000 lines 727-729):
start at row 1 when the first cell of the first row exists, is non-empty, and
its lower-cased text contains "date" or "when"; otherwise start at row 0. -/
def startIndex (data : List (List String)) : Nat :=
  match data with
  | [] => 0
  | row :: _ =>
    match row with
    | [] => 0
    | c :: _ =>
      if c = "" then 0
      else if strContains (jsToLower c) "date" || strContains (jsToLower c) "when" then 1
      else 0

/-- One iteration of the row loop of `processImportedData` (part_000 lines
733-797).  `parse` stands for the date parsing the source performs through
`XLSX.SSF.parse_date_code` / the JS `Date` constructor, already yielding the
formatted `YYYY-MM-DD` string (`none` when the date is invalid), and `now i`
is the value of `Date.now()` at the moment row `i` is pushed. -/
def importStep (parse : String → Option String) (now : Nat → Nat)
    (i : Nat) (row : List String) (st : ImportState) : ImportState :=
  if row.length < 2 then st
  else
    let dateStr := jsTrim (row.getD 0 "")
    let title := jsTrim (row.getD 1 "")
    let fair := jsTrim (row.getD 2 "")
    let link := jsTrim (row.getD 3 "")
    if dateStr = "" ∨ title = "" then { st with skipped := st.skipped + 1 }
    else
      match parse dateStr with
      | none => { st with skipped := st.skipped + 1 }
      | some formattedDate =>
        if st.events.any fun e => decide (e.date = formattedDate ∧ e.title = title) then
          { st with skipped := st.skipped + 1 }
        else
          { st with
            events := st.events ++ [⟨now i + i, formattedDate, title, fair, link⟩],
            imported := st.imported + 1 }

/-- The row loop of `processImportedData`, carrying the row index `i`. -/
def importGo (parse : String → Option String) (now : Nat → Nat) :
    Nat → List (List String) → ImportState → ImportState
  | _, [], st => st
  | i, row :: rest, st => importGo parse now (i + 1) rest (importStep parse now i row st)

/-- `processImportedData(data)` of `src/unnamed/part_000` (lines 718-822):
skip a detected header row, then run the row loop over the remaining rows,
starting from the current store `events0` with both counters at zero. -/
def processImportedData (parse : String → Option String) (now : Nat → Nat)
    (data : List (List String)) (events0 : List Event) : ImportState :=
  importGo parse now (startIndex data) (data.drop (startIndex data)) ⟨events0, 0, 0⟩

/-- The deduplication invariant: no two distinct events in the store share the
`(date, title)` key. -/
def DedupInv (evs : List Event) : Prop :=
  evs.Pairwise fun a b => ¬(a.date = b.date ∧ a.title = b.title)

instance (evs : List Event) : Decidable (DedupInv evs) :=
  inferInstanceAs (Decidable (evs.Pairwise _))

/-- A sequence of import batches: each batch supplies its own date parser,
its own `Date.now()` clock, and its raw rows; the store is threaded through
while the counters restart at zero on every call. -/
def runBatches (batches : List ((String → Option String) × (Nat → Nat) × List (List String)))
    (events0 : List Event) : List Event :=
  batches.foldl (fun evs b => (processImportedData b.1 b.2.1 b.2.2 evs).events) events0

/-- `handleSearch` of `src/unnamed/part_000` (lines 411-466), as a function
from the store and the two query inputs (search box text, Fair dropdown value)
to the new `filteredEvents`. -/
def handleSearch (events : List Event) (searchInputValue selectedFair : String) :
    List Event :=
  let query := jsToLower (jsTrim searchInputValue)
  if events.length = 0 then []
  else if query = "" ∧ selectedFair = "" then []
  else
    let r1 :=
      if selectedFair ≠ "" then
        events.filter fun e => decide (e.fair ≠ "" ∧ e.fair = selectedFair)
      else events
    if query ≠ "" then r1.filter fun e => strContains (jsToLower e.title) query
    else r1

/-- The matching predicate of §4.5 in the words of the spec, for an event `E`
against a query `Q = (text, fairTag)`: `(Q.fairTag is empty OR E.fair ==
Q.fairTag) AND (Q.text is empty OR lowercase(E.title) contains
lowercase(Q.text))`. -/
def searchMatches (e : Event) (text fairTag : String) : Prop :=
  (fairTag = "" ∨ e.fair = fairTag) ∧
  (text = "" ∨ strContains (jsToLower e.title) (jsToLower text) = true)

instance (e : Event) (text fairTag : String) : Decidable (searchMatches e text fairTag) :=
  inferInstanceAs (Decidable (_ ∧ _))

/-- The `(highlightedDate, pending setTimeout)` portion of the UI state of
part_000.  `now` is the current clock reading in milliseconds; each entry of
`pending` is the deadline of a scheduled timeout whose callback sets
`highlightedDate` back to `null`. -/
structure HighlightSt where
  now : Nat
  highlightedDate : Option String
  pending : List Nat
  deriving DecidableEq, Repr

/-- `navigateToEvent(event)` of part_000 (lines 530-544): set the highlighted
date and schedule a clearing timeout 5000 ms in the future.  No pending
timeout is cancelled (the source never calls `clearTimeout`). -/
def navigateToEvent (e : Event) (st : HighlightSt) : HighlightSt :=
  { st with highlightedDate := some e.date, pending := st.pending ++ [st.now + 5000] }

/-- Advance the clock to time `t`: every pending timeout whose deadline has
been reached fires, and each such callback sets the highlighted date to
`null`. -/
def advanceTo (t : Nat) (st : HighlightSt) : HighlightSt :=
  { now := t,
    highlightedDate :=
      if st.pending.any (fun d => decide (d ≤ t)) then none else st.highlightedDate,
    pending := st.pending.filter fun d => decide (t < d) }

/-- The pieces of global state of `src/liveops-calendar/app.js` relevant to
the day modal: the full store, the derived `filteredEvents`, and the search
box text. -/
structure AppState where
  events : List Event
  filteredEvents : List Event
  searchText : String
  deriving DecidableEq, Repr

/-- `handleSearch` of `src/liveops-calendar/app.js` (lines 530-572): this
variant has no Fair filter and shows all events when the query is empty. -/
def appHandleSearch (st : AppState) (searchInputValue : String) : AppState :=
  let query := jsToLower (jsTrim searchInputValue)
  if st.events.length = 0 then
    { st with filteredEvents := [], searchText := searchInputValue }
  else if query = "" then
    { st with filteredEvents := st.events, searchText := searchInputValue }
  else
    { st with
      filteredEvents := st.events.filter fun e => strContains (jsToLower e.title) query,
      searchText := searchInputValue }

/-- `openEventModal(dateString)` of `src/liveops-calendar/app.js` (lines
29-41): the day list is always computed from the full `events` store, never
from `filteredEvents`. -/
def openEventModal (st : AppState) (dateString : String) : List Event :=
  st.events.filter fun ev => decide (ev.date = dateString)

/-- The day list that part_000 hands to `openDayEventsModal`: `renderCalendar`
(line 168) computes it as the slice of the current `filteredEvents` on the
given date, and `openDayEventsModal` (lines 1011-1030) stores it unchanged in
`currentDayEvents`.  Here `filteredEvents` is the result of the latest
`handleSearch`. -/
def part000DayEvents (events : List Event) (text fair dateString : String) : List Event :=
  (handleSearch events text fair).filter fun ev => decide (ev.date = dateString)

/-- The spec's Day-Detail contract `eventsOn(date)`: all events of the full
store whose date equals the given date. -/
def eventsOn (events : List Event) (dateString : String) : List Event :=
  events.filter fun ev => decide (ev.date = dateString)

/-- The pieces of global state touched or read by `deleteEvent` (part_000
lines 242-246): the store, the snapshot last written to durable storage by
`saveEvents`, and the search box text. -/
structure CalState where
  events : List Event
  savedSnapshot : Option (List Event)
  searchInputValue : String
  deriving DecidableEq, Repr

/-- `saveEvents()` (part_000 lines 1006-1008): write the whole store to
durable storage. -/
def saveEvents (st : CalState) : CalState := { st with savedSnapshot := some st.events }

/-- `deleteEvent(id)` (part_000 lines 242-246): keep exactly the events whose
id differs, then `saveEvents()`; `renderCalendar()` touches only the DOM. -/
def deleteEvent (id : Nat) (st : CalState) : CalState :=
  saveEvents { st with events := st.events.filter fun e => decide (e.id ≠ id) }

/-- The month table of `importFromWebhook` (part_000 lines 942-945):
3-letter month names to the 0-based month numbers the JS `Date` constructor
expects. -/
def monthMap : List (String × Nat) :=
  [("Jan", 0), ("Feb", 1), ("Mar", 2), ("Apr", 3), ("May", 4), ("Jun", 5),
   ("Jul", 6), ("Aug", 7), ("Sep", 8), ("Oct", 9), ("Nov", 10), ("Dec", 11)]

/-- JS `parseInt` on a day token: the leading decimal digits, `none` playing
the role of `NaN`. -/
def parseIntJS (s : String) : Option Nat :=
  let digits := s.data.takeWhile Char.isDigit
  if digits.isEmpty then none
  else some (digits.foldl (fun acc c => acc * 10 + (c.toNat - 48)) 0)

/-- Gregorian leap-year rule, as applied by the JS `Date` object. -/
def isLeap (y : Int) : Bool := (y % 4 == 0 && y % 100 != 0) || (y % 400 == 0)

/-- Number of days of the given 1-based month in year `y`. -/
def daysInMonth (y : Int) : Nat → Nat
  | 2 => if isLeap y then 29 else 28
  | 4 => 30
  | 6 => 30
  | 9 => 30
  | 11 => 30
  | _ => 31

/-- Month-overflow normalization of the JS `Date(year, month, day)`
constructor: 0-based months outside 0-11 carry into the year; the result
month is 1-based. -/
def normMonth (y m : Int) : Int × Nat :=
  (y + m.fdiv 12, (m.fmod 12).toNat + 1)

/-- Day-overflow normalization of the JS `Date(year, month, day)` constructor:
days outside the month carry over (fuel bounds the number of month borrows
and carries; it is chosen large enough for every reachable input). -/
def normDayF : Nat → Int → Nat → Int → Int × Nat × Nat
  | 0, y, m, _ => (y, m, 1)
  | fuel + 1, y, m, d =>
    if d < 1 then
      let ym2 := if m = 1 then (y - 1, 12) else (y, m - 1)
      normDayF fuel ym2.1 ym2.2 (d + daysInMonth ym2.1 ym2.2)
    else if d ≤ (daysInMonth y m : Int) then (y, m, d.toNat)
    else
      let ym2 := if m = 12 then (y + 1, 1) else (y, m + 1)
      normDayF fuel ym2.1 ym2.2 (d - daysInMonth y m)

/-- `new Date(year, month, day)` of JS with a 0-based month: full
normalization to a real calendar date `(year, month 1-12, day)`. -/
def jsMakeDate (y m d : Int) : Int × Nat × Nat :=
  let ym := normMonth y m
  normDayF (d.natAbs + 24) ym.1 ym.2 d

/-- JS `String(n).padStart(2, "0")`. -/
def pad2 (n : Nat) : String :=
  let s := toString n
  if s.length < 2 then "0" ++ s else s

/-- The \`${year}-${month}-${day}\` formatting used throughout part_000. -/
def formatYMD (y : Int) (m d : Nat) : String :=
  toString y ++ "-" ++ pad2 m ++ "-" ++ pad2 d

/-- Key lookup in a key-value webhook record (a flat string-keyed map). -/
def kvGet (item : List (String × String)) (k : String) : Option String :=
  (item.find? fun p => p.1 == k).map fun p => p.2

/-- JS `a || b` on a possibly-absent string field: the field's value when it
is present and truthy (non-empty), otherwise the fallback. -/
def jsOr (a : Option String) (b : String) : String :=
  match a with
  | some s => if s = "" then b else s
  | none => b

/-- `item.Date || item.date || ''` of `importFromWebhook` (line 933). -/
def webhookDateStr (item : List (String × String)) : String :=
  jsOr (kvGet item "Date") (jsOr (kvGet item "date") "")

/-- Date handling of `importFromWebhook` (part_000 lines 938-954): trim, drop
the weekday suffix after the comma, split on spaces, look the 3-letter month
up in `monthMap`, and build the date with the current year through the JS
`Date` constructor.  When the month or day token cannot be parsed the source
builds the literal string "NaN-NaN-NaN" (`new Date(...)` with a `NaN`
argument), which is reproduced here. -/
def webhookFormattedDate (currentYear : Int) (dateStr : String) : String :=
  let dateParts := jsTrim ((jsSplit ',' (jsTrim dateStr)).getD 0 "")
  let tokens := (jsSplit ' ' dateParts).filter fun t => !(t == "")
  match monthMap.lookup (tokens.getD 1 ""), parseIntJS (tokens.getD 0 "") with
  | some month, some day =>
    let ymd := jsMakeDate currentYear month day
    formatYMD ymd.1 ymd.2.1 ymd.2.2
  | _, _ => "NaN-NaN-NaN"

/-- The fixed event-column vocabulary of `importFromWebhook` (part_000 lines
921-929), exactly as written in the source. -/
def eventColumns : List String :=
  ["Launches", "Fairs", "Chip / Rockets Store Sale", "PO 1", "PO 2",
   "SeasonPass", "Album Sale", "RBS", "EBS", "Piggy Bank", "Wheel Spin",
   "Web Shop Sale", "Event 1", "Event 2", "Powerplay Promo",
   "Lever/Promo 1", "Lever/Promo 2", "Bash Wins/Tourney", "Rooms Lever",
   "DIscounted Card Cost (DCC)", "Bash Care Package", "Slots Promo",
   "Season Pass Challenge", "Web", "VIP", "Bold Beats - I", "Bold Beats - II",
   "Bold beats - III", "CRM Promo-1", "CRM Promotions 2", "Room Config Changes"]

/-- The test `value && value.toString().trim() && value !== '' && value !== '-'`
applied to an event column of a record (part_000 line 967). -/
def colPasses (item : List (String × String)) (colName : String) : Bool :=
  match kvGet item colName with
  | some v => !(v == "") && !(jsTrim v == "") && !(v == "-")
  | none => false

/-- The `[formattedDate, title, fair, link]` row that the fan-out loop pushes
for one passing event column (part_000 line 969). -/
def webhookRow (currentYear : Int) (item : List (String × String)) (colName : String) :
    List String :=
  [webhookFormattedDate currentYear (webhookDateStr item),
   colName ++ ": " ++ ((kvGet item colName).getD ""),
   jsOr (kvGet item "Fairs") "",
   jsOr (kvGet item "Link") (jsOr (kvGet item "link") (jsOr (kvGet item "URL")
     (jsOr (kvGet item "url") (jsOr (kvGet item "Ticket Link") ""))))]

/-- The per-record fan-out of `importFromWebhook` (part_000 lines 931-981):
a record without a date produces nothing; otherwise one row is pushed per
event column whose value is present, non-blank and not "-". -/
def webhookRecordRows (currentYear : Int) (item : List (String × String)) :
    List (List String) :=
  if webhookDateStr item = "" then []
  else
    eventColumns.foldl (fun acc colName =>
      match kvGet item colName with
      | some v =>
        if !(v == "") && !(jsTrim v == "") && !(v == "-") then
          acc ++ [webhookRow currentYear item colName]
        else acc
      | none => acc) []

/-- The §8 fan-out example record of the spec. -/
def fanoutExampleItem : List (String × String) :=
  [("Date", " 5 Mar, Tue"), ("Fairs", "SpringFair"), ("PO 1", "Sale A"), ("PO 2", "-")]

/-- Days-count to proleptic-Gregorian conversion (days counted from
1970-01-01), by the standard era/day-of-era arithmetic.  Used to model the
external spreadsheet serial-date conversion. -/
def civilFromDays (z0 : Int) : Int × Nat × Nat :=
  let z := (z0 + 719468).toNat
  let era := z / 146097
  let doe := z % 146097
  let yoe := (doe - doe / 1460 + doe / 36524 - doe / 146096) / 365
  let doy := doe - (365 * yoe + yoe / 4 - yoe / 100)
  let mp := (5 * doy + 2) / 153
  let d := doy - (153 * mp + 2) / 5 + 1
  let m := if mp < 10 then mp + 3 else mp - 9
  ((if m ≤ 2 then (yoe : Int) + era * 400 + 1 else (yoe : Int) + era * 400), m, d)

/-- Modelled from the spec: the spreadsheet serial-day rule of the external
`XLSX.SSF.parse_date_code` library call (not under src) — "day 1 =
1899-12-31, with a deliberate off-by-one leap-year artifact at day 60" (the
fictitious 1900-02-29). -/
def serialToDate (n : Int) : Int × Nat × Nat :=
  if n = 60 then (1900, 2, 29)
  else if n > 60 then civilFromDays (n - 25570)
  else civilFromDays (n - 25569)

/-- A raw date value as it reaches the normalizer: a spreadsheet cell is
either a number or a string. -/
inductive RawValue where
  | num (n : Int)
  | str (s : String)
  deriving DecidableEq, Repr

/-- The text of a raw value (JS `toString`). -/
def rawText : RawValue → String
  | .num n => toString n
  | .str s => s

/-- Modelled from the spec: the JS numeric test `!isNaN(raw)` that guards the
serial branch in `processImportedData` (line 758) — a raw value is numeric
when it is a number or a string of decimal digits. -/
def rawNum? : RawValue → Option Int
  | .num n => some n
  | .str s =>
    let t := jsTrim s
    if t ≠ "" ∧ t.data.all Char.isDigit then
      some ((t.data.foldl (fun acc c => acc * 10 + (c.toNat - 48)) 0 : Nat) : Int)
    else none

/-- The weekday-annotated short form, following the parsing steps of
`importFromWebhook` (part_000 lines 938-949), but returning `none` where the
unified normalizer fails. -/
def weekdayShortForm? (s : String) (referenceYear : Int) : Option (Int × Nat × Nat) :=
  let dateParts := jsTrim ((jsSplit ',' (jsTrim s)).getD 0 "")
  let tokens := (jsSplit ' ' dateParts).filter fun t => !(t == "")
  match monthMap.lookup (tokens.getD 1 ""), parseIntJS (tokens.getD 0 "") with
  | some month, some day => some (jsMakeDate referenceYear month day)
  | _, _ => none

/-- A string of decimal digits evaluated strictly (`none` when empty or when
any character is not a digit). -/
def natOfDigits? (s : String) : Option Nat :=
  if s ≠ "" ∧ s.data.all Char.isDigit then
    some (s.data.foldl (fun acc c => acc * 10 + (c.toNat - 48)) 0)
  else none

/-- Modelled from the spec: the generic locale-agnostic calendar-string parse
that `processImportedData` performs through the JS `Date` constructor (host
engine, not under src); covers the spec's `YYYY-MM-DD` and month-first
`MM/DD/YYYY` example forms, requiring a valid (year, month 1-12,
day-valid-for-month) triple. -/
def genericParse? (s : String) : Option (Int × Nat × Nat) :=
  let t := jsTrim s
  let checked : Int → Nat → Nat → Option (Int × Nat × Nat) := fun y m d =>
    if 1 ≤ m ∧ m ≤ 12 ∧ 1 ≤ d ∧ d ≤ daysInMonth y m then some (y, m, d) else none
  match (jsSplit '-' t).map natOfDigits? with
  | [some y, some m, some d] => checked y m d
  | _ =>
    match (jsSplit '/' t).map natOfDigits? with
    | [some m, some d, some y] => checked y m d
    | _ => none

/-- Modelled from the spec: the unified Date Normalizer of §4.1 — in src the
serial and generic branches live in `processImportedData` (lines 753-796,
via the external XLSX library and the JS `Date` engine) and the weekday
short form lives in `importFromWebhook` (lines 936-954); the three forms are
tried in order, first success wins, and `none` is the tagged `InvalidDate`
failure. -/
def normalizeDate (raw : RawValue) (referenceYear : Int) : Option (Int × Nat × Nat) :=
  let serial? :=
    match rawNum? raw with
    | some n => if n > 1000 then some (serialToDate n) else none
    | none => none
  match serial? with
  | some ymd => some ymd
  | none =>
    match weekdayShortForm? (rawText raw) referenceYear with
    | some ymd => some ymd
    | none => genericParse? (rawText raw)

/-- JSON values as delivered by the webhook endpoint. -/
inductive Json where
  | null
  | bool (b : Bool)
  | num (n : Int)
  | str (s : String)
  | arr (elems : List Json)
  | obj (fields : List (String × Json))

/-- JS property access `j[k]` on a parsed JSON value: only objects have
(string-keyed) properties. -/
def Json.getField : Json → String → Option Json
  | .obj fields, k => (fields.find? fun p => p.1 == k).map fun p => p.2
  | _, _ => none

/-- JS truthiness of a JSON value; arrays and objects are always truthy. -/
def Json.truthy : Json → Bool
  | .null => false
  | .bool b => b
  | .num n => !(n == 0)
  | .str s => !(s == "")
  | .arr _ => true
  | .obj _ => true

/-- The test `j.k && Array.isArray(j.k)`: the property exists, is truthy and
is an array. -/
def jsonArrayField (j : Json) (k : String) : Option (List Json) :=
  match j.getField k with
  | some v => match v with
    | .arr xs => if v.truthy then some xs else none
    | _ => none
  | none => none

/-- The top-level shape dispatch of `importFromWebhook` (part_000 lines
883-894): a bare array, else a truthy array `data` property, else a truthy
array `body` property; anything else throws (the batch-aborting parse
error, `none`). -/
def webhookDataArray : Json → Option (List Json)
  | .arr xs => some xs
  | j =>
    match jsonArrayField j "data" with
    | some xs => some xs
    | none => jsonArrayField j "body"

/-- The accepted webhook shapes in the words of the spec (§6): a bare array
of records, or an object whose `data` field is an array, or an object whose
`body` field is an array. -/
def acceptedShape (j : Json) : Bool :=
  match j with
  | .arr _ => true
  | _ =>
    (match j.getField "data" with | some (.arr _) => true | _ => false) ||
    (match j.getField "body" with | some (.arr _) => true | _ => false)

/-- The string-valued fields of a JSON record, as read by the fan-out loop. -/
def jsonToKV (j : Json) : List (String × String) :=
  match j with
  | .obj fields => fields.filterMap fun p =>
      match p.2 with
      | .str s => some (p.1, s)
      | _ => none
  | _ => []

/-- `importFromWebhook` (part_000 lines 854-1003) over the store: on an
accepted shape the fanned-out rows go through `processImportedData`; on any
other shape the thrown error is caught and the store is left untouched.  The
boolean records whether the shape was accepted. -/
def importFromWebhook (parse : String → Option String) (now : Nat → Nat)
    (currentYear : Int) (events0 : List Event) (response : Json) :
    List Event × Bool :=
  match webhookDataArray response with
  | none => (events0, false)
  | some records =>
    let jsonData := records.foldl
      (fun acc r => acc ++ webhookRecordRows currentYear (jsonToKV r)) []
    if jsonData.length = 0 then (events0, true)
    else ((processImportedData parse now jsonData events0).events, true)

/-- An import candidate in the sense of the spec's Record Adapter (§4.2). -/
structure ImportCandidate where
  dateRaw : String
  title : String
  fair : String
  link : String
  deriving DecidableEq, Repr

/-- Modelled from the spec: the tabular Record Adapter of §4.2 — at most one
candidate per row; a row is dropped when it has fewer than 2 non-empty cells
in positions 0-1 or when `dateRaw` or `title` is empty after trimming. -/
def tabularCandidate? (row : List String) : Option ImportCandidate :=
  let dateRaw := jsTrim (row.getD 0 "")
  let title := jsTrim (row.getD 1 "")
  if dateRaw = "" ∨ title = "" then none
  else some ⟨dateRaw, title, jsTrim (row.getD 2 ""), jsTrim (row.getD 3 "")⟩

/-- Modelled from the spec: all candidates the tabular Record Adapter
produces for a dataset, after the header-row skip. -/
def tabularCandidates (data : List (List String)) : List ImportCandidate :=
  (data.drop (startIndex data)).filterMap tabularCandidate?

/-- The rows that `processImportedData` actually counts: post-header rows
with at least 2 cells. -/
def countedRows (data : List (List String)) : Nat :=
  ((data.drop (startIndex data)).filter fun row => decide (2 ≤ row.length)).length

/-- Shape of the store after one row step: either unchanged, or one event
appended whose id is `now i + i` and whose `(date, title)` key clashes with
no stored event. -/
theorem importStep_events (parse : String → Option String) (now : Nat → Nat)
    (i : Nat) (row : List String) (st : ImportState) :
    (importStep parse now i row st).events = st.events ∨
    ∃ fd t f l, (importStep parse now i row st).events
        = st.events ++ [⟨now i + i, fd, t, f, l⟩] ∧
      ∀ e ∈ st.events, ¬(e.date = fd ∧ e.title = t) := by
  simp only [importStep]
  split
  · exact Or.inl rfl
  split
  · exact Or.inl rfl
  split
  · exact Or.inl rfl
  next fd hp =>
  split
  · exact Or.inl rfl
  next hany =>
  refine Or.inr ⟨fd, jsTrim (row.getD 1 ""), _, _, rfl, ?_⟩
  intro e he hkey
  have := (List.any_eq_false).mp (Bool.eq_false_iff.mpr hany) e he
  exact this (decide_eq_true hkey)

/-- One row step preserves the dedup invariant. -/
theorem importStep_dedup (parse : String → Option String) (now : Nat → Nat)
    (i : Nat) (row : List String) (st : ImportState) (h : DedupInv st.events) :
    DedupInv (importStep parse now i row st).events := by
  rcases importStep_events parse now i row st with heq | ⟨fd, t, f, l, heq, hnew⟩
  · rw [heq]; exact h
  · rw [heq]
    unfold DedupInv at *
    rw [List.pairwise_append]
    refine ⟨h, List.pairwise_singleton _ _, ?_⟩
    intro a ha b hb
    rw [List.mem_singleton] at hb
    subst hb
    exact hnew a ha

/-- The whole row loop preserves the dedup invariant. -/
theorem importGo_dedup (parse : String → Option String) (now : Nat → Nat) :
    ∀ (rows : List (List String)) (i : Nat) (st : ImportState),
      DedupInv st.events → DedupInv (importGo parse now i rows st).events
  | [], _, _, h => h
  | row :: rest, i, st, h =>
    importGo_dedup parse now rest (i + 1) _ (importStep_dedup parse now i row st h)

/-- C1: Store dedup invariant — after any sequence of imports through
`processImportedData`, no two distinct events in the store share the
`(date, title)` key; and a candidate whose normalized `(date, title)` pair
already occurs in the store (including events accepted earlier in the same
batch) is counted as skipped and leaves the store — in particular the
existing event's `fair` and `link` — unchanged, whatever the candidate's
`fair`/`link` cells contain. -/
theorem import_dedup_invariant :
    (∀ batches events0, DedupInv events0 → DedupInv (runBatches batches events0)) ∧
    (∀ (parse : String → Option String) (now : Nat → Nat) (i : Nat)
        (row : List String) (st : ImportState) (fd : String),
        ¬ row.length < 2 →
        ¬(jsTrim (row.getD 0 "") = "" ∨ jsTrim (row.getD 1 "") = "") →
        parse (jsTrim (row.getD 0 "")) = some fd →
        (∃ e ∈ st.events, e.date = fd ∧ e.title = jsTrim (row.getD 1 "")) →
        importStep parse now i row st = { st with skipped := st.skipped + 1 }) := by
  constructor
  · intro batches
    induction batches with
    | nil => intro evs h; exact h
    | cons b rest ih =>
      intro evs h
      exact ih _ (importGo_dedup _ _ _ _ _ h)
  · intro parse now i row st fd h2 hne hp hex
    have hany : (st.events.any fun e =>
        decide (e.date = fd ∧ e.title = jsTrim (row.getD 1 ""))) = true := by
      rcases hex with ⟨e, he, hkey⟩
      exact List.any_eq_true.mpr ⟨e, he, decide_eq_true hkey⟩
    simp only [importStep]
    rw [if_neg h2, if_neg hne]
    simp only [hp]
    rw [if_pos hany]

/-- Closed instance of C1 at concrete inputs: a batch into the empty store
keeps the invariant, and a duplicate-keyed candidate differing in `fair` and
`link` only bumps the skip counter. -/
theorem import_dedup_invariant_witness :
    DedupInv (runBatches [(fun s => some s, fun _ => 0, [["2025-01-01", "A"]])] []) ∧
    importStep (fun s => some s) (fun _ => 0) 3 ["2025-01-01", "A", "F2", "L2"]
        ⟨[⟨5, "2025-01-01", "A", "F1", "L1"⟩], 0, 0⟩
      = ⟨[⟨5, "2025-01-01", "A", "F1", "L1"⟩], 0, 1⟩ :=
  ⟨import_dedup_invariant.1 _ _ (by decide),
   import_dedup_invariant.2 _ _ 3 _ _ "2025-01-01" (by decide) (by decide) rfl
     ⟨⟨5, "2025-01-01", "A", "F1", "L1"⟩, by decide, by decide⟩⟩

/-- Each row with at least 2 cells bumps exactly one of the two counters;
shorter rows bump neither. -/
theorem importStep_count (parse : String → Option String) (now : Nat → Nat)
    (i : Nat) (row : List String) (st : ImportState) :
    (importStep parse now i row st).imported + (importStep parse now i row st).skipped
      = st.imported + st.skipped + (if 2 ≤ row.length then 1 else 0) := by
  by_cases h2 : row.length < 2
  · simp only [importStep, if_pos h2]
    rw [if_neg (show ¬ 2 ≤ row.length by omega)]
    omega
  · simp only [importStep]
    rw [if_neg h2, if_pos (show 2 ≤ row.length by omega)]
    split
    · dsimp only; omega
    split
    · dsimp only; omega
    split
    · dsimp only; omega
    · dsimp only; omega

/-- Counter accounting over the whole row loop. -/
theorem importGo_count (parse : String → Option String) (now : Nat → Nat) :
    ∀ (rows : List (List String)) (i : Nat) (st : ImportState),
      (importGo parse now i rows st).imported + (importGo parse now i rows st).skipped
        = st.imported + st.skipped + (rows.filter fun r => decide (2 ≤ r.length)).length
  | [], _, _ => by simp [importGo]
  | row :: rest, i, st => by
    rw [importGo, importGo_count parse now rest (i + 1) _, importStep_count]
    by_cases h : 2 ≤ row.length <;> (simp [List.filter_cons, h]; try omega)

/-- C7: Count accounting (amended) — `importedCount + skippedCount` equals the
number of post-header rows having at least 2 cells.  Rows with fewer than 2
cells are dropped and counted in neither total, but rows with at least 2 cells
whose trimmed date or title is empty are counted as skipped even though the
Record Adapter produces no candidate for them, so the sum can exceed the
number of produced ImportCandidates. -/
theorem import_count_accounting (parse : String → Option String) (now : Nat → Nat)
    (data : List (List String)) (events0 : List Event) :
    (processImportedData parse now data events0).imported +
      (processImportedData parse now data events0).skipped = countedRows data := by
  unfold processImportedData countedRows
  rw [importGo_count]
  dsimp only
  omega

/-- Counterexample to C7 as stated: the single row `[" ", "x"]` yields no
ImportCandidate (its trimmed date is empty) yet is counted as skipped, so
`importedCount + skippedCount = 1` is not the candidate count `0`. -/
theorem import_count_claim_cex :
    (processImportedData (fun s => some s) (fun _ => 0) [[" ", "x"]] []).imported +
        (processImportedData (fun s => some s) (fun _ => 0) [[" ", "x"]] []).skipped = 1 ∧
      (tabularCandidates [[" ", "x"]]).length = 0 ∧
      ¬ ((processImportedData (fun s => some s) (fun _ => 0) [[" ", "x"]] []).imported +
            (processImportedData (fun s => some s) (fun _ => 0) [[" ", "x"]] []).skipped
          = (tabularCandidates [[" ", "x"]]).length) := by decide

/-- A row step only ever appends to the store. -/
theorem importStep_appendOnly (parse : String → Option String) (now : Nat → Nat)
    (i : Nat) (row : List String) (st : ImportState) :
    st.events <+: (importStep parse now i row st).events := by
  rcases importStep_events parse now i row st with heq | ⟨fd, t, f, l, heq, _⟩
  · rw [heq]
  · rw [heq]; exact List.prefix_append _ _

/-- The whole row loop only ever appends to the store. -/
theorem importGo_appendOnly (parse : String → Option String) (now : Nat → Nat) :
    ∀ (rows : List (List String)) (i : Nat) (st : ImportState),
      st.events <+: (importGo parse now i rows st).events
  | [], _, _ => List.prefix_refl _
  | row :: rest, i, st =>
    (importStep_appendOnly parse now i row st).trans
      (importGo_appendOnly parse now rest (i + 1) _)

/-- With a nondecreasing clock, the ids `now i + i` assigned along the row
loop are strictly increasing, so the events of a batch carry strictly
increasing ids. -/
theorem importGo_id_bound (parse : String → Option String) (now : Nat → Nat)
    (mono : ∀ a b : Nat, a ≤ b → now a ≤ now b) :
    ∀ (rows : List (List String)) (i : Nat) (st : ImportState),
      (∀ e ∈ st.events, e.id < now i + i) →
      st.events.Pairwise (fun a b => a.id < b.id) →
      (∀ e ∈ (importGo parse now i rows st).events,
          e.id < now (i + rows.length) + (i + rows.length)) ∧
      ((importGo parse now i rows st).events.Pairwise fun a b => a.id < b.id) := by
  intro rows
  induction rows with
  | nil =>
    intro i st hb hp
    exact ⟨by simpa using hb, hp⟩
  | cons row rest ih =>
    intro i st hb hp
    have hbound : ∀ e ∈ (importStep parse now i row st).events,
        e.id < now (i + 1) + (i + 1) := by
      have hlift : now i + i < now (i + 1) + (i + 1) := by
        have := mono i (i + 1) (by omega)
        omega
      rcases importStep_events parse now i row st with heq | ⟨fd, t, f, l, heq, _⟩
      · rw [heq]; intro e he; exact lt_trans (hb e he) hlift
      · rw [heq]; intro e he
        rcases List.mem_append.mp he with h | h
        · exact lt_trans (hb e h) hlift
        · rw [List.mem_singleton] at h; subst h; exact hlift
    have hpair : (importStep parse now i row st).events.Pairwise
        fun a b => a.id < b.id := by
      rcases importStep_events parse now i row st with heq | ⟨fd, t, f, l, heq, _⟩
      · rw [heq]; exact hp
      · rw [heq]
        rw [List.pairwise_append]
        refine ⟨hp, List.pairwise_singleton _ _, ?_⟩
        intro a ha b hbmem
        rw [List.mem_singleton] at hbmem
        subst hbmem
        exact hb a ha
    have := ih (i + 1) (importStep parse now i row st) hbound hpair
    rw [importGo]
    constructor
    · intro e he
      have h1 := this.1 e he
      have harith : i + 1 + rest.length = i + (row :: rest).length := by
        simp [List.length_cons]; omega
      rw [harith] at h1
      exact h1
    · exact this.2

/-- C9: Id assignment (amended) — existing events are never mutated (every
batch only appends to the store), and within a single batch the assigned ids
`Date.now() + rowIndex` are pairwise distinct provided the clock is
nondecreasing; across batches, however, ids can collide (see the
counterexample), so global uniqueness does not hold. -/
theorem event_id_assignment :
    (∀ (parse : String → Option String) (now : Nat → Nat)
        (data : List (List String)) (events0 : List Event),
        events0 <+: (processImportedData parse now data events0).events) ∧
    (∀ (parse : String → Option String) (now : Nat → Nat)
        (data : List (List String)),
        (∀ a b : Nat, a ≤ b → now a ≤ now b) →
        ((processImportedData parse now data []).events.Pairwise
          fun a b => a.id ≠ b.id)) := by
  constructor
  · intro parse now data events0
    exact importGo_appendOnly parse now (data.drop (startIndex data)) (startIndex data)
      ⟨events0, 0, 0⟩
  · intro parse now data mono
    have h := (importGo_id_bound parse now mono (data.drop (startIndex data))
      (startIndex data) ⟨[], 0, 0⟩ (by intro e he; simp at he) (by simp)).2
    exact h.imp fun hlt => Nat.ne_of_lt hlt

/-- Closed instance of C9's amended statement at concrete inputs. -/
theorem event_id_assignment_witness :
    ([] : List Event) <+: (processImportedData (fun s => some s) (fun _ => 7)
        [["d1", "t1"], ["d2", "t2"]] []).events ∧
    ((processImportedData (fun s => some s) (fun _ => 7)
        [["d1", "t1"], ["d2", "t2"]] []).events.Pairwise fun a b => a.id ≠ b.id) :=
  ⟨event_id_assignment.1 _ _ _ _,
   event_id_assignment.2 _ _ _ fun _ _ _ => Nat.le_refl 7⟩

/-- Counterexample to C9 as stated: two batches, the second running one
millisecond after the first, produce two distinct events sharing id 1001
(`1000 + 1` in the first batch, `1001 + 0` in the second), so ids in the
store are not globally unique. -/
theorem event_id_collision_cex :
    ¬ ((runBatches [(fun s => some s, fun _ => 1000, [["d1", "t1"], ["d2", "t2"]]),
          (fun s => some s, fun _ => 1001, [["d3", "t3"]])] []).Pairwise
        fun a b => a.id ≠ b.id) := by decide

/-- C3: Highlight single-timer property — evaluation of the code at the
failing input.  Select event A at t=0 and event B at t=2000, inside A's
5000 ms window: the code leaves TWO pending expiry timers (deadlines 5000 and
7000), and at t=5000 A's stale timer fires and clears the highlight to none
even though B was selected only 3000 ms earlier — the state transition
`date=B → date=none` happens a full 2000 ms before B's own window ends,
contradicting the claimed single-timer behavior (`navigateToEvent` never
cancels a pending timeout). -/
theorem highlight_stale_timer_fires :
    (navigateToEvent ⟨2, "2025-01-02", "B", "", ""⟩
        (advanceTo 2000 (navigateToEvent ⟨1, "2025-01-01", "A", "", ""⟩
          ⟨0, none, []⟩))).pending = [5000, 7000] ∧
    (navigateToEvent ⟨2, "2025-01-02", "B", "", ""⟩
        (advanceTo 2000 (navigateToEvent ⟨1, "2025-01-01", "A", "", ""⟩
          ⟨0, none, []⟩))).highlightedDate = some "2025-01-02" ∧
    (advanceTo 5000 (navigateToEvent ⟨2, "2025-01-02", "B", "", ""⟩
        (advanceTo 2000 (navigateToEvent ⟨1, "2025-01-01", "A", "", ""⟩
          ⟨0, none, []⟩)))).highlightedDate = none := by decide

/-- C10: Delete frame property — `deleteEvent(id)` keeps exactly the events
whose id differs (same records, in their original relative order), writes a
fresh snapshot of the post-delete store, and leaves the search box text
untouched. -/
theorem deleteEvent_frame (id : Nat) (st : CalState) :
    (∀ e, e ∈ (deleteEvent id st).events ↔ e ∈ st.events ∧ e.id ≠ id) ∧
    List.Sublist (deleteEvent id st).events st.events ∧
    (deleteEvent id st).savedSnapshot = some ((deleteEvent id st).events) ∧
    (deleteEvent id st).searchInputValue = st.searchInputValue := by
  refine ⟨fun e => ?_, ?_, rfl, rfl⟩
  · simp [deleteEvent, saveEvents, List.mem_filter]
  · simp only [deleteEvent, saveEvents]
    exact List.filter_sublist st.events

/-- C6: Date Normalizer algorithm — the serial form converts numeric raw
values greater than 1000 through the epoch rule (never treating them as
literal text): `normalizeDate 45643` is the concrete calendar date
2024-12-16 for every reference year; the weekday-annotated short form maps
" 1 Jan, Wed" with reference year 2025 to 2025-01-01; the generic form maps
"2024-12-25" to 2024-12-25 for every reference year; and "not a date" yields
the tagged InvalidDate failure (`none`) rather than an exception. -/
theorem normalizeDate_algorithm :
    (∀ Y : Int, normalizeDate (.num 45643) Y = some (2024, 12, 16)) ∧
    normalizeDate (.str " 1 Jan, Wed") 2025 = some (2025, 1, 1) ∧
    (∀ Y : Int, normalizeDate (.str "2024-12-25") Y = some (2024, 12, 25)) ∧
    (∀ Y : Int, normalizeDate (.str "not a date") Y = none) := by
  refine ⟨fun Y => ?_, by decide, fun Y => ?_, fun Y => ?_⟩ <;> rfl

/-- Lower-casing preserves emptiness. -/
theorem jsToLower_eq_empty (s : String) : jsToLower s = "" ↔ s = "" := by
  constructor
  · intro h
    have hd : s.data.map Char.toLower = [] := congrArg String.data h
    have hnil : s.data = [] := by simpa using hd
    cases s with
    | mk cs =>
      simp only at hnil
      rw [hnil]
  · intro h; subst h; rfl

/-- C2: Filter predicate (amended) — whenever the query is non-vacuous (its
trimmed text or its fair tag is non-empty), an event appears in
`FilteredEvents` iff the §4.5 predicate holds of it (with `Q.text` read as
the trimmed search box text); but when both the trimmed text and the fair tag
are empty, this part_000 variant shows NO events, even though the predicate
is vacuously true of every stored event. -/
theorem handleSearch_characterization :
    (∀ (events : List Event) (text fair : String) (e : Event),
        ¬(jsTrim text = "" ∧ fair = "") →
        (e ∈ handleSearch events text fair ↔
          e ∈ events ∧ searchMatches e (jsTrim text) fair)) ∧
    (∀ (events : List Event) (text fair : String),
        jsTrim text = "" → fair = "" → handleSearch events text fair = []) := by
  constructor
  · intro events text fair e h
    have hqiff : jsToLower (jsTrim text) = "" ↔ jsTrim text = "" := jsToLower_eq_empty _
    simp only [handleSearch, searchMatches]
    by_cases hev : events.length = 0
    · rw [if_pos hev]
      have hnil : events = [] := List.length_eq_zero.mp hev
      subst hnil
      simp
    rw [if_neg hev]
    have hq2 : ¬(jsToLower (jsTrim text) = "" ∧ fair = "") := by
      rw [hqiff]; exact h
    rw [if_neg hq2]
    by_cases hf : fair = ""
    · have ht : ¬ jsTrim text = "" := fun hh => h ⟨hh, hf⟩
      have htl : ¬ jsToLower (jsTrim text) = "" := by rw [hqiff]; exact ht
      rw [if_neg (show ¬ fair ≠ "" from fun hc => hc hf), if_pos htl]
      simp [List.mem_filter, hf, ht]
    · by_cases ht : jsTrim text = ""
      · have htl : jsToLower (jsTrim text) = "" := hqiff.mpr ht
        rw [if_pos (show fair ≠ "" from hf),
          if_neg (show ¬ jsToLower (jsTrim text) ≠ "" from fun hc => hc htl)]
        simp only [List.mem_filter, decide_eq_true_eq]
        constructor
        · rintro ⟨he, -, hfe⟩
          exact ⟨he, Or.inr hfe, Or.inl ht⟩
        · rintro ⟨he, hfa, -⟩
          rcases hfa with h1 | h1
          · exact absurd h1 hf
          · exact ⟨he, by rw [h1]; exact hf, h1⟩
      · have htl : ¬ jsToLower (jsTrim text) = "" := by rw [hqiff]; exact ht
        rw [if_pos (show fair ≠ "" from hf), if_pos htl]
        simp only [List.mem_filter, decide_eq_true_eq]
        constructor
        · rintro ⟨⟨he, -, hfe⟩, hc⟩
          exact ⟨he, Or.inr hfe, Or.inr hc⟩
        · rintro ⟨he, hfa, hcc⟩
          rcases hfa with h1 | h1
          · exact absurd h1 hf
          rcases hcc with h2 | h2
          · exact absurd h2 ht
          · exact ⟨⟨he, by rw [h1]; exact hf, h1⟩, h2⟩
  · intro events text fair ht hf
    simp only [handleSearch]
    by_cases hev : events.length = 0
    · rw [if_pos hev]
    · rw [if_neg hev, if_pos ⟨(jsToLower_eq_empty _).mpr ht, hf⟩]

/-- Counterexample to C2 as stated: with the empty query (empty text, empty
fair tag) the §4.5 predicate holds of the stored event, yet part_000's
`handleSearch` produces an empty `FilteredEvents`. -/
theorem search_empty_query_cex :
    searchMatches ⟨1, "2025-01-01", "Alpha", "", ""⟩ "" "" ∧
      ⟨1, "2025-01-01", "Alpha", "", ""⟩ ∉
        handleSearch [⟨1, "2025-01-01", "Alpha", "", ""⟩] "" "" := by decide

/-- Closed instance of C2's amended statement at concrete inputs. -/
theorem handleSearch_characterization_witness :
    ((⟨1, "2025-01-01", "Alpha", "", ""⟩ : Event) ∈
        handleSearch [⟨1, "2025-01-01", "Alpha", "", ""⟩] " AL " "" ↔
      (⟨1, "2025-01-01", "Alpha", "", ""⟩ : Event) ∈
          [(⟨1, "2025-01-01", "Alpha", "", ""⟩ : Event)] ∧
        searchMatches ⟨1, "2025-01-01", "Alpha", "", ""⟩ (jsTrim " AL ") "") ∧
    handleSearch [⟨1, "2025-01-01", "Alpha", "", ""⟩] "  " "" = [] :=
  ⟨handleSearch_characterization.1 _ " AL " "" _ (by decide),
   handleSearch_characterization.2 _ "  " "" (by decide) rfl⟩

/-- C5: Day-detail independence (amended) — in the app.js variant the day
modal is computed from the full store, unchanged by any run of the global
search (`openEventModal` after `appHandleSearch` equals `openEventModal`
before, and equals the spec's `eventsOn` contract); in the part_000 variant,
however, the day modal receives the day slice of the globally filtered
events, so an event appears there iff it survives the global query AND lies
on the date. -/
theorem day_view_characterization :
    (∀ (st : AppState) (text dateString : String),
        openEventModal (appHandleSearch st text) dateString
          = openEventModal st dateString) ∧
    (∀ (st : AppState) (dateString : String),
        openEventModal st dateString = eventsOn st.events dateString) ∧
    (∀ (events : List Event) (text fair dateString : String) (e : Event),
        e ∈ part000DayEvents events text fair dateString ↔
          e ∈ handleSearch events text fair ∧ e.date = dateString) := by
  refine ⟨fun st text d => ?_, fun st d => rfl, fun evs t f d e => ?_⟩
  · simp only [appHandleSearch, openEventModal]
    split
    · rfl
    split
    · rfl
    · rfl
  · simp [part000DayEvents, List.mem_filter]

/-- Counterexample to C5 as stated: in part_000, with the active global query
"zzz", the day view of 2025-01-01 is empty although the store holds an event
on that date — the day modal is not independent of the global query. -/
theorem day_view_query_dependent_cex :
    part000DayEvents [⟨1, "2025-01-01", "Alpha", "", ""⟩] "zzz" "" "2025-01-01" = [] ∧
      eventsOn [⟨1, "2025-01-01", "Alpha", "", ""⟩] "2025-01-01"
        = [⟨1, "2025-01-01", "Alpha", "", ""⟩] := by decide

/-- A fold that conditionally appends singletons is the map of the filter. -/
theorem foldl_push_filter {α β : Type} (p : α → Bool) (g : α → β) :
    ∀ (l : List α) (acc : List β),
      l.foldl (fun acc a => if p a then acc ++ [g a] else acc) acc
        = acc ++ (l.filter p).map g
  | [], acc => by simp
  | a :: l, acc => by
    rw [List.foldl_cons, List.filter_cons]
    cases h : p a
    · show List.foldl _ acc l = acc ++ List.map g (List.filter p l)
      exact foldl_push_filter p g l acc
    · show List.foldl _ (acc ++ [g a]) l = acc ++ List.map g (a :: List.filter p l)
      rw [foldl_push_filter p g l (acc ++ [g a]), List.map_cons]
      simp

/-- The fan-out loop body of `webhookRecordRows` is the conditional push of
`webhookRow` guarded by `colPasses`. -/
theorem webhookBody_eq (Y : Int) (item : List (String × String)) :
    (fun (acc : List (List String)) (colName : String) =>
        match kvGet item colName with
        | some v =>
          if !(v == "") && !(jsTrim v == "") && !(v == "-") then
            acc ++ [webhookRow Y item colName]
          else acc
        | none => acc)
      = fun acc colName =>
          if colPasses item colName then acc ++ [webhookRow Y item colName] else acc := by
  funext acc colName
  unfold colPasses
  cases kvGet item colName with
  | none => rfl
  | some v => rfl

/-- `new Date(Y, 2, 5)` is March 5 of year `Y`, for every year. -/
theorem jsMakeDate_mar5 (Y : Int) : jsMakeDate Y 2 5 = (Y, 3, 5) := by
  show ((Y + 0 : Int), (3 : Nat), (5 : Nat)) = (Y, 3, 5)
  rw [Int.add_zero]

/-- The webhook date " 5 Mar, Tue" formats to March 5 of the reference
year. -/
theorem webhookFormattedDate_ex (Y : Int) :
    webhookFormattedDate Y " 5 Mar, Tue" = formatYMD Y 3 5 := by
  show formatYMD (jsMakeDate Y 2 5).1 (jsMakeDate Y 2 5).2.1 (jsMakeDate Y 2 5).2.2
      = formatYMD Y 3 5
  rw [jsMakeDate_mar5]

/-- C4: Webhook fan-out (amended) — for every record, exactly one candidate
row is produced per event-vocabulary column whose value is present, non-blank
and not the sentinel "-" (in vocabulary order, each with title
`<column>: <value>` and the record's shared date, fair and link); the spec's
example record, however, produces exactly TWO candidates, because the
`Fairs` column is itself part of the scanned vocabulary: `Fairs: SpringFair`
and `PO 1: Sale A`, both dated March 5 of the reference year with fair
`SpringFair`. -/
theorem webhook_fanout :
    (∀ (Y : Int) (item : List (String × String)),
        webhookRecordRows Y item
          = if webhookDateStr item = "" then []
            else (eventColumns.filter (colPasses item)).map (webhookRow Y item)) ∧
    (∀ Y : Int, webhookRecordRows Y fanoutExampleItem
        = [[formatYMD Y 3 5, "Fairs: SpringFair", "SpringFair", ""],
           [formatYMD Y 3 5, "PO 1: Sale A", "SpringFair", ""]]) := by
  have gen : ∀ (Y : Int) (item : List (String × String)),
      webhookRecordRows Y item
        = if webhookDateStr item = "" then []
          else (eventColumns.filter (colPasses item)).map (webhookRow Y item) := by
    intro Y item
    unfold webhookRecordRows
    split
    · rfl
    · rw [webhookBody_eq Y item, foldl_push_filter]
      rw [List.nil_append]
  refine ⟨gen, fun Y => ?_⟩
  rw [gen Y fanoutExampleItem, if_neg (by decide)]
  have hfc : eventColumns.filter (colPasses fanoutExampleItem) = ["Fairs", "PO 1"] := by
    decide
  rw [hfc]
  show [webhookRow Y fanoutExampleItem "Fairs", webhookRow Y fanoutExampleItem "PO 1"] = _
  unfold webhookRow
  have hds : webhookDateStr fanoutExampleItem = " 5 Mar, Tue" := rfl
  rw [hds]
  simp only [webhookFormattedDate_ex]
  rfl

/-- Counterexample to C4 as stated: the example record fans out into TWO
candidates, not exactly one — the `Fairs` column also matches the
vocabulary scan. -/
theorem webhook_fanout_cex :
    (webhookRecordRows 2025 fanoutExampleItem).length = 2 ∧
      ["2025-03-05", "Fairs: SpringFair", "SpringFair", ""]
          ∈ webhookRecordRows 2025 fanoutExampleItem ∧
      webhookRecordRows 2025 fanoutExampleItem
        ≠ [["2025-03-05", "PO 1: Sale A", "SpringFair", ""]] := by decide

/-- `jsonArrayField` succeeds exactly on truthy array-valued properties,
i.e. exactly on array-valued properties. -/
theorem jsonArrayField_isSome (j : Json) (k : String) :
    (jsonArrayField j k).isSome
      = (match j.getField k with | some (.arr _) => true | _ => false) := by
  unfold jsonArrayField
  cases h : j.getField k with
  | none => rfl
  | some v => cases v <;> simp [Json.truthy]

/-- The shape dispatch of `importFromWebhook` accepts exactly the three
documented shapes. -/
theorem webhookDataArray_isSome (j : Json) :
    (webhookDataArray j).isSome = acceptedShape j := by
  cases j with
  | arr xs => rfl
  | null => rfl
  | bool b => rfl
  | num n => rfl
  | str s => rfl
  | obj fields =>
    have step : ∀ (o o2 : Option (List Json)),
        (match o with | some xs => some xs | none => o2).isSome
          = (o.isSome || o2.isSome) := by
      intro o o2; cases o <;> simp
    show (match jsonArrayField (Json.obj fields) "data" with
          | some xs => some xs
          | none => jsonArrayField (Json.obj fields) "body").isSome
        = acceptedShape (Json.obj fields)
    rw [step, jsonArrayField_isSome, jsonArrayField_isSome]
    rfl

/-- C8: Webhook shape handling with atomic abort — a response is accepted
for import exactly when it is a bare array, or an object whose `data` field
is an array, or an object whose `body` field is an array; any other
top-level shape fails the whole batch and the Event Store is returned
unchanged. -/
theorem webhook_shape_atomic_abort :
    (∀ j : Json, (webhookDataArray j).isSome = acceptedShape j) ∧
    (∀ (parse : String → Option String) (now : Nat → Nat) (currentYear : Int)
        (events0 : List Event) (j : Json),
        acceptedShape j = false →
        importFromWebhook parse now currentYear events0 j = (events0, false)) := by
  refine ⟨webhookDataArray_isSome, ?_⟩
  intro parse now currentYear events0 j h
  have hsome : (webhookDataArray j).isSome = false := by
    rw [webhookDataArray_isSome, h]
  cases hw : webhookDataArray j with
  | none =>
    unfold importFromWebhook
    rw [hw]
  | some xs => rw [hw] at hsome; simp at hsome

/-- Closed instance of C8 at a concrete rejected shape: a bare string leaves
a non-empty store untouched. -/
theorem webhook_shape_atomic_abort_witness :
    importFromWebhook (fun s => some s) (fun _ => 0) 2025
        [⟨1, "2025-01-01", "A", "", ""⟩] (Json.str "oops")
      = ([⟨1, "2025-01-01", "A", "", ""⟩], false) :=
  webhook_shape_atomic_abort.2 _ _ _ _ _ (by decide)
